import Mathlib

/-!
# MindMate wellness app — verification of the personalization core

Shallow embedding of the pure logic of `src/app.py` (the MindMate
streamlit app): the personalization context builder
(`build_personal_context`, `get_habit_logs`, `get_journals` shims), the
chat orchestrator (`ask_ai`, `load_recent_chat`, `chat_tab`'s persist
logic), the habit-log upsert (`toggle_habit_for_date`) and password
verification (`verify_password`).

Modelling conventions:
* Calendar days are modelled as natural numbers; the SQL and pandas
  comparisons on ISO `YYYY-MM-DD` strings are order-isomorphic to the
  numeric order on day numbers.
* Python text is modelled as Lean `String` (a list of unicode scalar
  values), with Python `str.strip`, `str.replace("\n", " ")` and slicing
  spelled out on the underlying character list.  `isPySpace` covers the
  ASCII whitespace characters Python strips.
* The SQLite store is modelled as in-memory lists in insertion (rowid)
  order; `completed` is stored as the integer 0/1 the code writes.
* The external OpenAI collaborator and the bcrypt primitive are
  modelled as oracle parameters returning `Except`, embedding "returns
  normally" versus "raises".
* `int(round(100 * comp / n))` in `build_personal_context`: Python
  `round` is round-half-to-even on the IEEE double `100*comp/n`.  For
  the magnitudes reachable here (`comp ≤ n`, `n` a row count) the double
  rounds to the same integer as the exact rational, so the rate is
  embedded as round-half-to-even of the rational `100*comp/n`.
-/

/-! ## Python text primitives -/

/-- The ASCII whitespace characters stripped by Python `str.strip()`. -/
def isPySpace (c : Char) : Bool :=
  c == ' ' || c == '\t' || c == '\n' || c == '\r' || c == '\x0b' || c == '\x0c'

/-- Python `s.strip()`: drop leading and trailing whitespace. -/
def pyStrip (s : String) : String :=
  ⟨((s.data.dropWhile isPySpace).reverse.dropWhile isPySpace).reverse⟩

/-- Python `s.replace("\n", " ")`: each newline becomes one space. -/
def collapseNL (s : String) : String :=
  ⟨s.data.map fun c => if c == '\n' then ' ' else c⟩

/-- Python `", ".join(xs)` (also used with other separators). -/
def joinWith (sep : String) : List String → String
  | [] => ""
  | [x] => x
  | x :: y :: xs => x ++ sep ++ joinWith sep (y :: xs)

/-- `created_at.split("T")[0]`: the date part of an ISO timestamp. -/
def dayOf (ts : String) : String :=
  ⟨ts.data.takeWhile fun c => c ≠ 'T'⟩

/-! ## Data model (tables of `init_db`) -/

/-- A row of the `habits` table (`created_at` is unused by the embedded
operations and omitted). -/
structure Habit where
  id : Nat
  user_id : Nat
  name : String
deriving DecidableEq, Repr

/-- A row of the `habit_logs` table: at most one per `(habit_id, log_date)`
is the intended invariant (`UNIQUE(habit_id, log_date)`). -/
structure HabitLog where
  habit_id : Nat
  log_date : Nat
  completed : Nat
deriving DecidableEq, Repr

/-- A row of the dataframe returned by `get_habit_logs`: habit name with a
nullable log date and completion flag (nulls arise from the LEFT JOIN). -/
structure HRow where
  name : String
  log_date : Option Nat
  completed : Option Nat
deriving DecidableEq, Repr

/-- A row of the `journals` table as selected by `get_journals`:
`(entry, created_at)` with `created_at` an ISO timestamp string. -/
structure JRow where
  entry : String
  created_at : String
deriving DecidableEq, Repr

/-- A row of the `chats` table as used by `load_recent_chat` / `ask_ai`:
role and content. -/
structure Msg where
  role : String
  content : String
deriving DecidableEq, Repr

/-! ## `get_habit_logs` (left join + date window) -/

/-- `FROM habits h LEFT JOIN habit_logs l ON h.id = l.habit_id`: a habit
with no logs still yields one row, with null date and completion. -/
def leftJoinHabitLogs (habits : List Habit) (logs : List HabitLog) : List HRow :=
  habits.flatMap fun h =>
    let ls := logs.filter fun l => l.habit_id == h.id
    if ls.isEmpty then [⟨h.name, none, none⟩]
    else ls.map fun l => ⟨h.name, some l.log_date, some l.completed⟩

/-- `get_habit_logs`: the joined rows of the user's habits restricted by
`WHERE h.user_id = :uid AND (l.log_date >= :since OR l.log_date IS NULL)`. -/
def get_habit_logs (uid : Nat) (habits : List Habit) (logs : List HabitLog)
    (since : Nat) : List HRow :=
  (leftJoinHabitLogs (habits.filter fun h => h.user_id == uid) logs).filter
    fun r => match r.log_date with
      | some d => since ≤ d
      | none => true

/-! ## `build_personal_context` -/

/-- Round-half-to-even of the rational `num/den` (Python `round` on the
float `num/den`, exact at these magnitudes). -/
def roundHalfEven (num den : Nat) : Nat :=
  let q := num / den
  let r := num % den
  if 2 * r < den then q
  else if den < 2 * r then q + 1
  else if q % 2 = 0 then q else q + 1

/-- Round-half-up of `num/den` (`den > 0`), i.e. `floor(num/den + 1/2)`;
this is what the specification text calls `round`. -/
def roundHalfUp (num den : Nat) : Nat :=
  (2 * num + den) / (2 * den)

/-- `grp["completed"].fillna(0).sum()`: null completion counts as 0. -/
def compSum (grp : List HRow) : Nat :=
  (grp.map fun r => r.completed.getD 0).sum

/-- `int(round(100 * comp / max(n, 1)))` for one groupby group. -/
def rateOf (grp : List HRow) : Nat :=
  roundHalfEven (100 * compSum grp) (max grp.length 1)

/-- Insert a name into a sorted list (helper for the sorted group keys
that pandas `groupby` produces). -/
def sortedInsert (s : String) : List String → List String
  | [] => [s]
  | x :: xs => if s < x then s :: x :: xs else x :: sortedInsert s xs

/-- The distinct habit names of the rows, sorted — the group keys of
`sub.groupby("name")`. -/
def groupNames (rows : List HRow) : List String :=
  rows.foldl (fun acc r => if acc.contains r.name then acc else sortedInsert r.name acc) []

/-- The rows of one groupby group. -/
def rowsOf (nm : String) (rows : List HRow) : List HRow :=
  rows.filter fun r => r.name == nm

/-- The `(name, rate)` pairs computed by the groupby loop of
`build_personal_context` (groups with `n == 0` are skipped, mirroring
`if n == 0: continue`). -/
def ratesList (sub : List HRow) : List (String × Nat) :=
  (groupNames sub).filterMap fun nm =>
    let grp := rowsOf nm sub
    if grp.length = 0 then none
    else some (nm, rateOf grp)

/-- The formatted `f"{name}: {rate}%"` strings. -/
def rateStrs (sub : List HRow) : List String :=
  (ratesList sub).map fun p => p.1 ++ ": " ++ toString p.2 ++ "%"

/-- The rows surviving the last-7-days filter
`habits_df[habits_df["log_date"].fillna(last7) >= last7]`. -/
def subRows (uid : Nat) (habits : List Habit) (logs : List HabitLog)
    (today : Nat) : List HRow :=
  (get_habit_logs uid habits logs (today - 14)).filter
    fun r => (today - 7) ≤ r.log_date.getD (today - 7)

/-- The habit-adherence summary of `build_personal_context`. -/
def habitSummaryOf (uid : Nat) (habits : List Habit) (logs : List HabitLog)
    (today : Nat) : String :=
  let df := get_habit_logs uid habits logs (today - 14)
  if df.isEmpty then "no habits yet"
  else
    let rs := rateStrs (subRows uid habits logs today)
    if rs.isEmpty then "no recent habit data" else joinWith ", " rs

/-- The snippet built for one journal entry:
`entry.strip().replace("\n", " ")`, truncated at 220 characters with an
appended `"..."`. -/
def snippetOf (entry : String) : String :=
  let t := collapseNL (pyStrip entry)
  if 220 < t.length then ⟨t.data.take 220⟩ ++ "..." else t

/-- The snippet as the specification sentence words it: collapse line
breaks, then truncate — with no leading/trailing-whitespace strip.
Stated only to be compared against `snippetOf`. -/
def claimSnippetOf (entry : String) : String :=
  let t := collapseNL entry
  if 220 < t.length then ⟨t.data.take 220⟩ ++ "..." else t

/-- The `f"[{day}] {snippet}"` bullet points. -/
def journalPoints (journals : List JRow) : List String :=
  journals.map fun j => "[" ++ dayOf j.created_at ++ "] " ++ snippetOf j.entry

/-- The journal section body: bullet list, or the placeholder. -/
def journalBody (journals : List JRow) : String :=
  let pts := journalPoints journals
  if pts.isEmpty then "no journal entries" else joinWith "\n- " pts

/-- `build_personal_context`, taking the journal rows selected by
`get_journals(user_id, days_back=7)` as input (the store read contract). -/
def buildPersonalContext (journals : List JRow) (uid : Nat)
    (habits : List Habit) (logs : List HabitLog) (today : Nat) : String :=
  "Recent Journals:\n- " ++ journalBody journals
    ++ "\n\nHabit Adherence (last 7 days): " ++ habitSummaryOf uid habits logs today

/-! ## Chat store and orchestrator -/

/-- `load_recent_chat`: `ORDER BY id DESC LIMIT lim`, then
`list(reversed(rows))`.  The store list is in insertion (id) order. -/
def loadRecentChat (store : List Msg) (limit : Nat) : List Msg :=
  ((store.reverse).take limit).reverse

/-- The fixed persona system message content of `ask_ai`. -/
def personaText : String :=
  "You are MindMate, a friendly and empathetic wellness companion. "
    ++ "Be supportive, non-judgmental, and concrete. Prefer short, practical suggestions (1–3 items). "
    ++ "If user seems distressed, suggest a simple grounding exercise. Avoid medical diagnoses."

/-- The message list `ask_ai` sends to the chat-completion collaborator. -/
def askAiMessages (store : List Msg) (ctx : String) (utext : String) : List Msg :=
  [⟨"system", personaText⟩, ⟨"system", "User personal context:\n" ++ ctx⟩]
    ++ loadRecentChat store 10 ++ [⟨"user", utext⟩]

/-- `ask_ai`: missing key short-circuits; otherwise the collaborator is
called on the assembled messages; a normal return is `.strip()`ped, an
exception becomes the `"AI error: ..."` string. -/
def askAi (keyPresent : Bool) (journals : List JRow) (uid : Nat)
    (habits : List Habit) (logs : List HabitLog) (today : Nat)
    (store : List Msg) (utext : String)
    (collab : List Msg → Except String String) : String :=
  if keyPresent = false then "OpenAI API key not set. Please configure your .env."
  else
    let ctx := buildPersonalContext journals uid habits logs today
    match collab (askAiMessages store ctx utext) with
    | Except.ok reply => pyStrip reply
    | Except.error e => "AI error: " ++ e

/-- One chat turn of `chat_tab`: if the stripped message is non-empty,
save the user row, call `ask_ai` (whose history is loaded from the store
that already holds the user row), then save the assistant row. -/
def chatTurn (keyPresent : Bool) (journals : List JRow) (uid : Nat)
    (habits : List Habit) (logs : List HabitLog) (today : Nat)
    (store : List Msg) (raw : String)
    (collab : List Msg → Except String String) : List Msg :=
  if (pyStrip raw).data.isEmpty then store
  else
    let m := pyStrip raw
    let s1 := store ++ [⟨"user", m⟩]
    let reply := askAi keyPresent journals uid habits logs today s1 m collab
    s1 ++ [⟨"assistant", reply⟩]

/-! ## Habit-log upsert and password check -/

/-- The `(habit_id, log_date)` key predicate of the upsert. -/
def keyMatch (hid d : Nat) (r : HabitLog) : Bool :=
  r.habit_id == hid && r.log_date == d

/-- `toggle_habit_for_date`: UPDATE all rows of the key; if none were
updated, INSERT OR IGNORE a fresh row (the IGNORE re-checks the unique
key). -/
def toggle_habit_for_date (rows : List HabitLog) (hid d : Nat)
    (completed : Bool) : List HabitLog :=
  let v := if completed then 1 else 0
  let updated := rows.map fun r =>
    if keyMatch hid d r then { r with completed := v } else r
  let rowcount := (rows.filter (keyMatch hid d)).length
  if rowcount == 0 then
    if rows.any (keyMatch hid d) then updated
    else updated ++ [⟨hid, d, v⟩]
  else updated

/-- `verify_password`: bcrypt's `checkpw` is an oracle that returns a
boolean or raises (`Except.error`); any raise is caught and mapped to
`false`. -/
def verify_password (password storedHash : String)
    (checkpw : String → String → Except String Bool) : Bool :=
  match checkpw password storedHash with
  | Except.ok b => b
  | Except.error _ => false

/-! ## Helper lemmas -/

/-- `ORDER BY id DESC LIMIT n` then reversing yields the final segment of
the store in chronological order. -/
theorem loadRecentChat_eq_drop (store : List Msg) (n : Nat) :
    loadRecentChat store n = store.drop (store.length - n) := by
  unfold loadRecentChat
  rw [List.reverse_take]
  simp

theorem joinWith_head_le (sep x : String) (xs : List String) :
    x.length ≤ (joinWith sep (x :: xs)).length := by
  cases xs with
  | nil => simp [joinWith]
  | cons y ys =>
    simp [joinWith, String.length_append]
    omega

theorem compSum_cons (r : HRow) (l : List HRow) :
    compSum (r :: l) = r.completed.getD 0 + compSum l := by
  simp [compSum]

theorem compSum_eq_zero (grp : List HRow)
    (h : ∀ r ∈ grp, r.completed = some 0 ∨ r.completed = none) : compSum grp = 0 := by
  induction grp with
  | nil => rfl
  | cons r l ih =>
    have hr := h r (List.mem_cons_self r l)
    have hz : r.completed.getD 0 = 0 := by rcases hr with h1 | h1 <;> simp [h1]
    rw [compSum_cons, hz, ih fun x hx => h x (List.mem_cons_of_mem r hx)]

theorem compSum_eq_length (grp : List HRow)
    (h : ∀ r ∈ grp, r.completed = some 1) : compSum grp = grp.length := by
  induction grp with
  | nil => rfl
  | cons r l ih =>
    have hr := h r (List.mem_cons_self r l)
    rw [compSum_cons, hr, ih fun x hx => h x (List.mem_cons_of_mem r hx)]
    simp [Nat.add_comm]

theorem roundHalfEven_zero (den : Nat) : roundHalfEven 0 den = 0 := by
  unfold roundHalfEven
  simp only [Nat.zero_div, Nat.zero_mod, Nat.mul_zero]
  split
  · rfl
  · split
    · omega
    · simp

theorem roundHalfEven_hundred (n : Nat) (h : 0 < n) : roundHalfEven (100 * n) n = 100 := by
  unfold roundHalfEven
  have hq : 100 * n / n = 100 := by simp [Nat.mul_div_cancel, h]
  have hr : 100 * n % n = 0 := Nat.mul_mod_left 100 n
  simp only [hq, hr, Nat.mul_zero]
  split
  · rfl
  · omega

/-! ## Claim theorems -/

/-- Claim C5: the message sequence `ask_ai` sends is exactly the fixed
system persona message, then one system message carrying the context
builder output, then the most recent 10 stored chat messages in
chronological order with their roles untouched, then the new user
message last. -/
theorem c5_message_sequence : ∀ (store : List Msg) (ctx utext : String),
    askAiMessages store ctx utext =
      ⟨"system", personaText⟩ :: ⟨"system", "User personal context:\n" ++ ctx⟩ ::
        (store.drop (store.length - 10) ++ [⟨"user", utext⟩]) := by
  intro store ctx utext
  simp [askAiMessages, loadRecentChat_eq_drop]

/-- Claim C6: `load_recent_chat` returns the newest `limit` stored
messages reversed into chronological order; on `[A, B, C]` with limit 2
it yields `[B, C]`, not `[C, B]`. -/
theorem c6_recent_chat_chronological :
    (∀ (store : List Msg) (limit : Nat),
      loadRecentChat store limit = store.drop (store.length - limit))
    ∧ loadRecentChat [⟨"user", "A"⟩, ⟨"assistant", "B"⟩, ⟨"user", "C"⟩] 2
        = [⟨"assistant", "B"⟩, ⟨"user", "C"⟩] :=
  ⟨loadRecentChat_eq_drop, by decide⟩

/-- Claim C8: every collaborator failure is returned as the readable
string `"AI error: ..."`, and a missing key as the fixed apology string;
`ask_ai` always returns a string rather than propagating the failure. -/
theorem c8_collab_failure_handled : ∀ (journals : List JRow) (uid : Nat)
    (habits : List Habit) (logs : List HabitLog) (today : Nat)
    (store : List Msg) (utext e : String)
    (collab : List Msg → Except String String),
    (∀ msgs, collab msgs = Except.error e) →
    (askAi true journals uid habits logs today store utext collab = "AI error: " ++ e
    ∧ 0 < (askAi true journals uid habits logs today store utext collab).length
    ∧ ∀ collab2 : List Msg → Except String String,
        askAi false journals uid habits logs today store utext collab2
          = "OpenAI API key not set. Please configure your .env.") := by
  intro journals uid habits logs today store utext e collab hfail
  have hrun : askAi true journals uid habits logs today store utext collab
      = "AI error: " ++ e := by
    unfold askAi
    simp only [hfail]
    rfl
  refine ⟨hrun, ?_, fun collab2 => rfl⟩
  rw [hrun, String.length_append]
  have : 0 < ("AI error: " : String).length := by decide
  omega

/-- Witness for C8 at a concrete failing collaborator. -/
theorem c8_collab_failure_handled_witness :
    askAi true [] 0 [] [] 0 [] "hi" (fun _ => Except.error "boom") = "AI error: boom" :=
  (c8_collab_failure_handled [] 0 [] [] 0 [] "hi" "boom"
    (fun _ => Except.error "boom") (fun _ => rfl)).1

/-- Claim C9: `verify_password` is total — a normal bcrypt answer is
passed through and any raise (malformed or corrupt stored hash) is
mapped to `false`, never propagated. -/
theorem c9_verify_password_total : ∀ (checkpw : String → String → Except String Bool)
    (pw hsh e : String) (b : Bool),
    (checkpw pw hsh = Except.error e → verify_password pw hsh checkpw = false)
    ∧ (checkpw pw hsh = Except.ok b → verify_password pw hsh checkpw = b) := by
  intro checkpw pw hsh e b
  constructor <;> intro h <;> simp [verify_password, h]

/-- Witness for C9 at a corrupt stored hash (bcrypt raises). -/
theorem c9_verify_password_total_witness :
    verify_password "pw" "corrupt" (fun _ _ => Except.error "Invalid salt") = false :=
  (c9_verify_password_total (fun _ _ => Except.error "Invalid salt")
    "pw" "corrupt" "Invalid salt" true).1 rfl

/-- Claim C1 counterexample: a group of 8 in-window rows with exactly one
completed gives `100/8 = 12.5`; Python `round` is half-to-even so the
code reports 12, while round-half-up as claimed would give 13. -/
theorem c1_rate_rounding_counterexample :
    habitSummaryOf 10 [⟨1, 10, "walk"⟩]
      [⟨1, 23, 0⟩, ⟨1, 24, 0⟩, ⟨1, 25, 0⟩, ⟨1, 26, 0⟩,
       ⟨1, 27, 0⟩, ⟨1, 28, 0⟩, ⟨1, 29, 0⟩, ⟨1, 30, 1⟩] 30 = "walk: 12%"
    ∧ (rowsOf "walk" (subRows 10 [⟨1, 10, "walk"⟩]
        [⟨1, 23, 0⟩, ⟨1, 24, 0⟩, ⟨1, 25, 0⟩, ⟨1, 26, 0⟩,
         ⟨1, 27, 0⟩, ⟨1, 28, 0⟩, ⟨1, 29, 0⟩, ⟨1, 30, 1⟩] 30)).length = 8
    ∧ compSum (rowsOf "walk" (subRows 10 [⟨1, 10, "walk"⟩]
        [⟨1, 23, 0⟩, ⟨1, 24, 0⟩, ⟨1, 25, 0⟩, ⟨1, 26, 0⟩,
         ⟨1, 27, 0⟩, ⟨1, 28, 0⟩, ⟨1, 29, 0⟩, ⟨1, 30, 1⟩] 30)) = 1
    ∧ roundHalfUp (100 * 1) 8 = 13
    ∧ (12 : Nat) ≠ 13 := by
  decide

/-- Claim C1 (amended): the reported rate of every habit group is
round-half-to-even (Python `round`) of `100 × completed-sum / group
size`, nulls counting 0 in the numerator but staying in the
denominator; an all-false-or-null group yields 0, an all-true group
yields 100, and 3 rows with 1 completed yield 33. -/
theorem c1_rate_half_even :
    (∀ (sub : List HRow) (nm : String) (rate : Nat), (nm, rate) ∈ ratesList sub →
      rate = roundHalfEven (100 * compSum (rowsOf nm sub)) (rowsOf nm sub).length)
    ∧ (∀ grp : List HRow, (∀ r ∈ grp, r.completed = some 0 ∨ r.completed = none) →
        rateOf grp = 0)
    ∧ (∀ grp : List HRow, grp ≠ [] → (∀ r ∈ grp, r.completed = some 1) →
        rateOf grp = 100)
    ∧ (∀ grp : List HRow, grp.length = 3 → compSum grp = 1 → rateOf grp = 33) := by
  refine ⟨?_, ?_, ?_, ?_⟩
  · intro sub nm rate hmem
    rcases List.mem_filterMap.mp hmem with ⟨a, ha, heq⟩
    simp only at heq
    by_cases h0 : (rowsOf a sub).length = 0
    · rw [if_pos h0] at heq
      exact absurd heq (by simp)
    · rw [if_neg h0] at heq
      obtain ⟨rfl, rfl⟩ : a = nm ∧ rateOf (rowsOf a sub) = rate := by simpa using heq
      unfold rateOf
      rw [Nat.max_eq_left (Nat.one_le_iff_ne_zero.mpr h0)]
  · intro grp h
    unfold rateOf
    rw [compSum_eq_zero grp h]
    simp [roundHalfEven_zero]
  · intro grp hne h
    have hlen : 0 < grp.length := List.length_pos.mpr hne
    unfold rateOf
    rw [compSum_eq_length grp h, Nat.max_eq_left hlen]
    exact roundHalfEven_hundred grp.length hlen
  · intro grp h3 h1
    unfold rateOf
    rw [h1, h3]
    decide

/-- Witness for C1 (amended) on a concrete 3-row group with 1 completed. -/
theorem c1_rate_half_even_witness :
    rateOf [⟨"w", some 1, some 1⟩, ⟨"w", some 2, some 0⟩, ⟨"w", some 3, some 0⟩] = 33 :=
  c1_rate_half_even.2.2.2
    [⟨"w", some 1, some 1⟩, ⟨"w", some 2, some 0⟩, ⟨"w", some 3, some 0⟩]
    (by decide) (by decide)

/-- Claim C2 counterexample: the snippet code first strips leading and
trailing whitespace (`entry.strip()`), which the claim's
collapse-then-truncate description omits: on `" a"` the code yields
`"a"`, not `" a"`. -/
theorem c2_snippet_counterexample :
    snippetOf " a" = "a" ∧ claimSnippetOf " a" = " a" ∧ ("a" : String) ≠ " a" := by
  decide

set_option maxRecDepth 8000 in
/-- Claim C2 (amended): the snippet is obtained by stripping leading and
trailing whitespace, collapsing embedded line breaks to single spaces,
and then truncating to the first 220 characters plus the ellipsis
marker exactly when the normalized text exceeds 220 characters; a
250-character entry (no edge whitespace) yields 220 characters plus the
marker, a 50-character one is reproduced unmodified. -/
theorem c2_snippet_strip_truncate :
    (∀ entry : String, 220 < (collapseNL (pyStrip entry)).length →
       snippetOf entry = String.mk ((collapseNL (pyStrip entry)).data.take 220) ++ "..."
       ∧ (snippetOf entry).length = 223)
    ∧ (∀ entry : String, (collapseNL (pyStrip entry)).length ≤ 220 →
       snippetOf entry = collapseNL (pyStrip entry))
    ∧ snippetOf (String.mk (List.replicate 250 'a'))
        = String.mk (List.replicate 220 'a') ++ "..."
    ∧ snippetOf (String.mk (List.replicate 50 'a')) = String.mk (List.replicate 50 'a') := by
  refine ⟨?_, ?_, by decide, by decide⟩
  · intro entry h
    have heq : snippetOf entry
        = String.mk ((collapseNL (pyStrip entry)).data.take 220) ++ "..." := by
      simp only [snippetOf]
      rw [if_pos h]
    refine ⟨heq, ?_⟩
    rw [heq, String.length_append]
    have hd : (collapseNL (pyStrip entry)).data.length = (collapseNL (pyStrip entry)).length :=
      rfl
    have hlen : (String.mk ((collapseNL (pyStrip entry)).data.take 220)).length = 220 := by
      show ((collapseNL (pyStrip entry)).data.take 220).length = 220
      rw [List.length_take]
      omega
    rw [hlen]
    decide
  · intro entry h
    simp only [snippetOf]
    rw [if_neg (not_lt.mpr h)]

set_option maxRecDepth 8000 in
/-- Witness for C2 (amended) at a concrete 250-character entry. -/
theorem c2_snippet_strip_truncate_witness :
    (snippetOf (String.mk (List.replicate 250 'a'))).length = 223 :=
  (c2_snippet_strip_truncate.1 (String.mk (List.replicate 250 'a')) (by decide)).2

/-- Claim C4 counterexample: a user with one habit whose only log is
older than the 14-day fetch window has habits yet no groups after the
7-day filter, and the code reports `"no habits yet"`, not
`"no recent habit data"` — the dataframe-empty branch fires whenever
the 14-day fetch returns no rows, not only for users without habits. -/
theorem c4_placeholder_counterexample :
    habitSummaryOf 10 [⟨1, 10, "walk"⟩] [⟨1, 0, 1⟩] 30 = "no habits yet"
    ∧ subRows 10 [⟨1, 10, "walk"⟩] [⟨1, 0, 1⟩] 30 = []
    ∧ ratesList (subRows 10 [⟨1, 10, "walk"⟩] [⟨1, 0, 1⟩] 30) = []
    ∧ ("no habits yet" : String) ≠ "no recent habit data" := by
  decide

/-- Claim C4 (amended): zero journal rows give exactly the placeholder
`"no journal entries"`; an empty 14-day habit fetch (in particular a
user with no habits) gives `"no habits yet"`; a non-empty fetch whose
7-day filter leaves no rate entries gives `"no recent habit data"`;
sections and the whole block are never empty. -/
theorem c4_placeholders_amended : ∀ (journals : List JRow) (uid : Nat)
    (habits : List Habit) (logs : List HabitLog) (today : Nat),
    (journals = [] → journalBody journals = "no journal entries")
    ∧ (habits = [] → habitSummaryOf uid habits logs today = "no habits yet")
    ∧ (get_habit_logs uid habits logs (today - 14) ≠ [] →
        rateStrs (subRows uid habits logs today) = [] →
        habitSummaryOf uid habits logs today = "no recent habit data")
    ∧ 0 < (journalBody journals).length
    ∧ 0 < (habitSummaryOf uid habits logs today).length
    ∧ 0 < (buildPersonalContext journals uid habits logs today).length := by
  intro journals uid habits logs today
  have hjb : 0 < (journalBody journals).length := by
    unfold journalBody
    dsimp only
    split
    · decide
    · rename_i hne
      rw [List.isEmpty_iff] at hne
      obtain ⟨p, ps, hp⟩ := List.exists_cons_of_ne_nil (by exact hne)
      rw [hp]
      have hmem : p ∈ journalPoints journals := hp ▸ List.mem_cons_self p ps
      rcases List.mem_map.mp hmem with ⟨j, _, rfl⟩
      have hle := joinWith_head_le "\n- " ("[" ++ dayOf j.created_at ++ "] " ++ snippetOf j.entry) ps
      simp only [String.length_append] at hle ⊢
      have h1 : 0 < ("[" : String).length := by decide
      omega
  have hhs : 0 < (habitSummaryOf uid habits logs today).length := by
    unfold habitSummaryOf
    dsimp only
    split
    · decide
    · split
      · decide
      · rename_i hne
        rw [List.isEmpty_iff] at hne
        obtain ⟨s, ss, hs⟩ := List.exists_cons_of_ne_nil (by exact hne)
        rw [hs]
        have hmem : s ∈ rateStrs (subRows uid habits logs today) :=
          hs ▸ List.mem_cons_self s ss
        rcases List.mem_map.mp hmem with ⟨q, _, rfl⟩
        have hle := joinWith_head_le ", " (q.1 ++ ": " ++ toString q.2 ++ "%") ss
        simp only [String.length_append] at hle ⊢
        have h1 : 0 < (": " : String).length := by decide
        omega
  refine ⟨fun h => by subst h; rfl, fun h => by subst h; rfl, ?_, hjb, hhs, ?_⟩
  · intro hdf hrs
    unfold habitSummaryOf
    dsimp only
    rw [if_neg (by simp [List.isEmpty_iff, hdf]), if_pos (by simp [List.isEmpty_iff, hrs])]
  · unfold buildPersonalContext
    simp only [String.length_append]
    have h1 : 0 < ("Recent Journals:\n- " : String).length := by decide
    omega

/-- Witness for C4 (amended) at concrete empty inputs. -/
theorem c4_placeholders_amended_witness :
    journalBody [] = "no journal entries"
    ∧ habitSummaryOf 7 [] [] 0 = "no habits yet" :=
  ⟨(c4_placeholders_amended [] 7 [] [] 0).1 rfl,
   (c4_placeholders_amended [] 7 [] [] 0).2.1 rfl⟩

/-! ## Upsert lemmas -/

theorem keyMatch_any_update (hid2 d2 hid d v : Nat) (r : HabitLog) :
    keyMatch hid2 d2 (if keyMatch hid d r then { r with completed := v } else r)
      = keyMatch hid2 d2 r := by
  unfold keyMatch
  split <;> rfl

theorem filter_update (rows : List HabitLog) (hid2 d2 hid d v : Nat) :
    ((rows.map fun r => if keyMatch hid d r then { r with completed := v } else r).filter
        (keyMatch hid2 d2)).length
      = (rows.filter (keyMatch hid2 d2)).length := by
  rw [List.filter_map]
  rw [List.length_map]
  congr 1
  apply List.filter_congr
  intro a _
  exact keyMatch_any_update hid2 d2 hid d v a

theorem toggle_count_eq (rows : List HabitLog) (hid d : Nat) (c : Bool) :
    ((toggle_habit_for_date rows hid d c).filter (keyMatch hid d)).length
      = if (rows.filter (keyMatch hid d)).length = 0 then 1
        else (rows.filter (keyMatch hid d)).length := by
  unfold toggle_habit_for_date
  dsimp only
  by_cases h0 : (rows.filter (keyMatch hid d)).length = 0
  · have hnil : rows.filter (keyMatch hid d) = [] := List.length_eq_zero.mp h0
    have hany : rows.any (keyMatch hid d) = false := by
      rw [List.any_eq_false]
      intro x hx hkx
      have : x ∈ rows.filter (keyMatch hid d) := List.mem_filter.mpr ⟨hx, hkx⟩
      rw [hnil] at this
      exact absurd this (List.not_mem_nil x)
    rw [h0]
    simp only [Nat.zero_add, hany, if_pos rfl]
    rw [if_pos (by simp), if_neg (by simp [hany])]
    rw [List.filter_append, List.length_append, filter_update]
    rw [h0]
    have hnew : keyMatch hid d (⟨hid, d, if c then 1 else 0⟩ : HabitLog) = true := by
      simp [keyMatch]
    simp [hnew]
  · rw [if_neg h0]
    rw [if_neg (by simp [h0])]
    exact filter_update rows hid d hid d (if c then 1 else 0)

theorem toggle_count_other (rows : List HabitLog) (hid d : Nat) (c : Bool)
    (hid2 d2 : Nat) (hne : ¬(hid2 = hid ∧ d2 = d)) :
    ((toggle_habit_for_date rows hid d c).filter (keyMatch hid2 d2)).length
      = (rows.filter (keyMatch hid2 d2)).length := by
  unfold toggle_habit_for_date
  dsimp only
  have hnew : keyMatch hid2 d2 (⟨hid, d, if c then 1 else 0⟩ : HabitLog) = false := by
    simp only [keyMatch, Bool.and_eq_false_iff]
    simp only [beq_iff_eq, beq_eq_false_iff_ne, ne_eq]
    by_cases h : hid = hid2
    · right
      intro hd
      exact hne ⟨h.symm, hd.symm⟩
    · left
      by_cases hb : (⟨hid, d, if c then 1 else 0⟩ : HabitLog).habit_id == hid2
      · exact absurd (by simpa using hb) h
      · simpa using hb
  split
  · split
    · exact filter_update rows hid2 d2 hid d (if c then 1 else 0)
    · rw [List.filter_append, List.length_append, filter_update]
      simp [hnew]
  · exact filter_update rows hid2 d2 hid d (if c then 1 else 0)

theorem toggle_value (rows : List HabitLog) (hid d : Nat) (c : Bool) :
    ∀ r ∈ toggle_habit_for_date rows hid d c, keyMatch hid d r = true →
      r.completed = (if c then 1 else 0) := by
  intro r hr hkey
  unfold toggle_habit_for_date at hr
  dsimp only at hr
  have hmap : ∀ x, x ∈ (rows.map fun r2 =>
      if keyMatch hid d r2 then { r2 with completed := if c then 1 else 0 } else r2) →
      keyMatch hid d x = true → x.completed = (if c then 1 else 0) := by
    intro x hx hkx
    rcases List.mem_map.mp hx with ⟨r0, _, rfl⟩
    by_cases h : keyMatch hid d r0 = true
    · rw [if_pos h]
    · rw [if_neg h] at hkx
      exact absurd hkx h
  split at hr
  · split at hr
    · exact hmap r hr hkey
    · rcases List.mem_append.mp hr with hu | hn
      · exact hmap r hu hkey
      · have hr2 : r = (⟨hid, d, if c then 1 else 0⟩ : HabitLog) := by simpa using hn
        rw [hr2]
  · exact hmap r hr hkey

/-- Claim C7: with the unique-key invariant in force, toggling the same
`(habit_id, date)` twice leaves exactly one matching row whose
`completed` value is the latest toggle's value; and every single toggle
preserves the at-most-one-row-per-key invariant. -/
theorem c7_upsert_unique : ∀ (rows : List HabitLog) (hid d : Nat) (c1 c2 : Bool),
    (∀ h2 d2 : Nat, (rows.filter (keyMatch h2 d2)).length ≤ 1) →
    (((toggle_habit_for_date (toggle_habit_for_date rows hid d c1) hid d c2).filter
        (keyMatch hid d)).length = 1
    ∧ (∀ r ∈ toggle_habit_for_date (toggle_habit_for_date rows hid d c1) hid d c2,
        keyMatch hid d r = true → r.completed = (if c2 then 1 else 0))
    ∧ (∀ (rows2 : List HabitLog) (h2 d2 : Nat) (c : Bool),
        (∀ h3 d3 : Nat, (rows2.filter (keyMatch h3 d3)).length ≤ 1) →
        ∀ h3 d3 : Nat,
          ((toggle_habit_for_date rows2 h2 d2 c).filter (keyMatch h3 d3)).length ≤ 1)) := by
  intro rows hid d c1 c2 hinv
  refine ⟨?_, toggle_value _ hid d c2, ?_⟩
  · rw [toggle_count_eq, toggle_count_eq]
    have h1 := hinv hid d
    by_cases hB : (rows.filter (keyMatch hid d)).length = 0
    · simp [hB]
    · have hB1 : (rows.filter (keyMatch hid d)).length = 1 := by omega
      simp [hB, hB1]
  · intro rows2 h2 d2 c hinv2 h3 d3
    by_cases hk : h3 = h2 ∧ d3 = d2
    · obtain ⟨rfl, rfl⟩ := hk
      rw [toggle_count_eq]
      have := hinv2 h3 d3
      split <;> omega
    · rw [toggle_count_other rows2 h2 d2 c h3 d3 hk]
      exact hinv2 h3 d3

/-- Witness for C7 on an initially empty log table. -/
theorem c7_upsert_unique_witness :
    ((toggle_habit_for_date (toggle_habit_for_date [] 1 2 true) 1 2 false).filter
        (keyMatch 1 2)).length = 1 :=
  (c7_upsert_unique [] 1 2 true false (fun h2 d2 => by simp)).1

/-! ## Groupby membership lemmas -/

theorem mem_sortedInsert (s x : String) (l : List String) :
    x ∈ sortedInsert s l ↔ x = s ∨ x ∈ l := by
  induction l with
  | nil => simp [sortedInsert]
  | cons a l ih =>
    unfold sortedInsert
    split
    · exact List.mem_cons
    · rw [List.mem_cons, ih, List.mem_cons]
      tauto

theorem mem_groupNames_aux (rows : List HRow) : ∀ (acc : List String) (x : String),
    x ∈ acc ∨ (∃ r ∈ rows, r.name = x) →
    x ∈ rows.foldl
      (fun acc2 r => if acc2.contains r.name then acc2 else sortedInsert r.name acc2) acc := by
  induction rows with
  | nil =>
    intro acc x h
    simp only [List.foldl_nil]
    rcases h with h | ⟨r, hr, _⟩
    · exact h
    · exact absurd hr (List.not_mem_nil r)
  | cons r rows ih =>
    intro acc x h
    simp only [List.foldl_cons]
    apply ih
    rcases h with hacc | ⟨r2, hr2, hname⟩
    · left
      by_cases hc : acc.contains r.name = true
      · rw [if_pos hc]
        exact hacc
      · rw [if_neg hc]
        exact (mem_sortedInsert _ _ _).mpr (Or.inr hacc)
    · rcases List.mem_cons.mp hr2 with heq | hmem
      · left
        subst heq
        by_cases hc : acc.contains r2.name = true
        · rw [if_pos hc, ← hname]
          exact List.elem_iff.mp hc
        · rw [if_neg hc]
          exact (mem_sortedInsert _ _ _).mpr (Or.inl hname.symm)
      · right
        exact ⟨r2, hmem, hname⟩

theorem mem_groupNames_of_mem (rows : List HRow) (r : HRow) (h : r ∈ rows) :
    r.name ∈ groupNames rows :=
  mem_groupNames_aux rows [] r.name (Or.inr ⟨r, h, rfl⟩)

theorem mem_leftJoin_elim (habits : List Habit) (logs : List HabitLog) (r : HRow)
    (h : r ∈ leftJoinHabitLogs habits logs) :
    ∃ hb ∈ habits, r.name = hb.name ∧
      (r = ⟨hb.name, none, none⟩ ∨
       ∃ l ∈ logs, l.habit_id = hb.id
         ∧ r = ⟨hb.name, some l.log_date, some l.completed⟩) := by
  unfold leftJoinHabitLogs at h
  rcases List.mem_flatMap.mp h with ⟨hb, hhb, hr⟩
  dsimp only at hr
  refine ⟨hb, hhb, ?_⟩
  split at hr
  · have hr2 : r = (⟨hb.name, none, none⟩ : HRow) := by simpa using hr
    exact ⟨by rw [hr2], Or.inl hr2⟩
  · rcases List.mem_map.mp hr with ⟨l, hl, hlr⟩
    have hmf := List.mem_filter.mp hl
    refine ⟨by rw [← hlr], Or.inr ⟨l, hmf.1, ?_, hlr.symm⟩⟩
    simpa using hmf.2

/-- Claim C3 counterexample: two habits of the same user share the name
`"walk"`; habit 2 has no log rows, yet the summary has no 0% group for
it — the groupby merges the two habits by name into one group at 50%. -/
theorem c3_merged_names_counterexample :
    (∀ l ∈ [(⟨1, 30, 1⟩ : HabitLog)], l.habit_id ≠ 2)
    ∧ ratesList (subRows 10 [⟨1, 10, "walk"⟩, ⟨2, 10, "walk"⟩] [⟨1, 30, 1⟩] 30)
        = [("walk", 50)]
    ∧ habitSummaryOf 10 [⟨1, 10, "walk"⟩, ⟨2, 10, "walk"⟩] [⟨1, 30, 1⟩] 30 = "walk: 50%"
    ∧ ("walk", 0) ∉ ratesList (subRows 10 [⟨1, 10, "walk"⟩, ⟨2, 10, "walk"⟩] [⟨1, 30, 1⟩] 30) := by
  decide

/-- Claim C3 (amended): a habit with no log rows whose name no other
habit of the same user shares (habits of other users may share it — the
fetch filters by `user_id` before grouping) still yields a null-dated
row from the habit fetch, that row passes the 7-day filter, and the
habit appears in the rate list as a group with rate 0. -/
theorem c3_nolog_habit_zero_rate : ∀ (uid : Nat) (habits : List Habit)
    (logs : List HabitLog) (today : Nat) (h : Habit),
    h ∈ habits → h.user_id = uid →
    (∀ l ∈ logs, l.habit_id ≠ h.id) →
    (∀ h2 ∈ habits, h2.user_id = uid → h2.name = h.name → h2 = h) →
    ((⟨h.name, none, none⟩ : HRow) ∈ get_habit_logs uid habits logs (today - 14)
    ∧ (⟨h.name, none, none⟩ : HRow) ∈ subRows uid habits logs today
    ∧ (h.name, 0) ∈ ratesList (subRows uid habits logs today)) := by
  intro uid habits logs today h hmem huid hnolog huniq
  have hfil : logs.filter (fun l => l.habit_id == h.id) = [] := by
    apply List.filter_eq_nil_iff.mpr
    intro l hl
    simpa using hnolog l hl
  have hjoin : (⟨h.name, none, none⟩ : HRow)
      ∈ leftJoinHabitLogs (habits.filter fun hh => hh.user_id == uid) logs := by
    unfold leftJoinHabitLogs
    apply List.mem_flatMap.mpr
    refine ⟨h, List.mem_filter.mpr ⟨hmem, by simp [huid]⟩, ?_⟩
    dsimp only
    simp [hfil]
  have hdf : (⟨h.name, none, none⟩ : HRow)
      ∈ get_habit_logs uid habits logs (today - 14) := by
    unfold get_habit_logs
    exact List.mem_filter.mpr ⟨hjoin, by simp⟩
  have hsub : (⟨h.name, none, none⟩ : HRow) ∈ subRows uid habits logs today := by
    unfold subRows
    exact List.mem_filter.mpr ⟨hdf, by simp⟩
  refine ⟨hdf, hsub, ?_⟩
  have hall : ∀ r ∈ rowsOf h.name (subRows uid habits logs today),
      r.completed = some 0 ∨ r.completed = none := by
    intro r hrow
    have hrf := List.mem_filter.mp hrow
    have hname : r.name = h.name := by simpa using hrf.2
    have hr_df : r ∈ get_habit_logs uid habits logs (today - 14) :=
      (List.mem_filter.mp hrf.1).1
    have hr_join : r ∈ leftJoinHabitLogs (habits.filter fun hh => hh.user_id == uid) logs :=
      (List.mem_filter.mp hr_df).1
    rcases mem_leftJoin_elim _ _ _ hr_join with ⟨hb, hhb, hbname, hcase⟩
    have hbf := List.mem_filter.mp hhb
    have hb_uid : hb.user_id = uid := by simpa using hbf.2
    have hb_eq : hb = h := huniq hb hbf.1 hb_uid (by rw [← hbname, hname])
    rcases hcase with hnull | ⟨l, hl, hlid, _⟩
    · right
      rw [hnull]
    · have : l.habit_id = h.id := by rw [hlid, hb_eq]
      exact absurd this (hnolog l hl)
  have hrate : rateOf (rowsOf h.name (subRows uid habits logs today)) = 0 := by
    unfold rateOf
    rw [compSum_eq_zero _ hall]
    simp [roundHalfEven_zero]
  have hlen : ¬(rowsOf h.name (subRows uid habits logs today)).length = 0 := by
    have hin : (⟨h.name, none, none⟩ : HRow)
        ∈ rowsOf h.name (subRows uid habits logs today) :=
      List.mem_filter.mpr ⟨hsub, by simp⟩
    intro h0
    rw [List.length_eq_zero] at h0
    rw [h0] at hin
    exact absurd hin (List.not_mem_nil _)
  have hnm : h.name ∈ groupNames (subRows uid habits logs today) :=
    mem_groupNames_of_mem _ ⟨h.name, none, none⟩ hsub
  apply List.mem_filterMap.mpr
  refine ⟨h.name, hnm, ?_⟩
  dsimp only
  rw [if_neg hlen, hrate]

/-- Witness for C3 (amended): one habit, no logs at all. -/
theorem c3_nolog_habit_zero_rate_witness :
    (⟨"walk", none, none⟩ : HRow) ∈ get_habit_logs 1 [⟨5, 1, "walk"⟩] [] (30 - 14)
    ∧ (⟨"walk", none, none⟩ : HRow) ∈ subRows 1 [⟨5, 1, "walk"⟩] [] 30
    ∧ ("walk", 0) ∈ ratesList (subRows 1 [⟨5, 1, "walk"⟩] [] 30) :=
  c3_nolog_habit_zero_rate 1 [⟨5, 1, "walk"⟩] [] 30 ⟨5, 1, "walk"⟩
    (by decide) rfl (by decide) (by decide)

/-- Claim C10: a chat turn with a non-empty (stripped) message appends
exactly two rows — the user row first, then an assistant row whose
content is `ask_ai`'s reply computed against the store that already
contains the user row (so the collaborator is invoked after the user
message is persisted); when the collaborator fails, the assistant row
holds the error string. -/
theorem c10_chat_turn_persists : ∀ (keyPresent : Bool) (journals : List JRow)
    (uid : Nat) (habits : List Habit) (logs : List HabitLog) (today : Nat)
    (store : List Msg) (raw : String) (collab : List Msg → Except String String),
    (pyStrip raw).data ≠ [] →
    (chatTurn keyPresent journals uid habits logs today store raw collab
      = store ++ [⟨"user", pyStrip raw⟩,
          ⟨"assistant", askAi keyPresent journals uid habits logs today
            (store ++ [⟨"user", pyStrip raw⟩]) (pyStrip raw) collab⟩]
    ∧ ∀ e : String, keyPresent = true → (∀ msgs, collab msgs = Except.error e) →
        (chatTurn keyPresent journals uid habits logs today store raw collab).getLast?
          = some ⟨"assistant", "AI error: " ++ e⟩) := by
  intro keyPresent journals uid habits logs today store raw collab hne
  have hturn : chatTurn keyPresent journals uid habits logs today store raw collab
      = store ++ [⟨"user", pyStrip raw⟩,
          ⟨"assistant", askAi keyPresent journals uid habits logs today
            (store ++ [⟨"user", pyStrip raw⟩]) (pyStrip raw) collab⟩] := by
    unfold chatTurn
    rw [if_neg (by simp [hne])]
    rw [List.append_assoc]
    rfl
  refine ⟨hturn, ?_⟩
  intro e hkey hfail
  subst hkey
  have hreply : askAi true journals uid habits logs today
      (store ++ [⟨"user", pyStrip raw⟩]) (pyStrip raw) collab = "AI error: " ++ e := by
    unfold askAi
    simp only [hfail]
    rfl
  rw [hturn, hreply, List.getLast?_append]
  rfl

/-- Witness for C10 with a concrete failing collaborator. -/
theorem c10_chat_turn_persists_witness :
    (chatTurn true [] 0 [] [] 0 [] "hi" (fun _ => Except.error "boom")).getLast?
      = some ⟨"assistant", "AI error: boom"⟩ :=
  (c10_chat_turn_persists true [] 0 [] [] 0 [] "hi" (fun _ => Except.error "boom")
    (by decide)).2 "boom" rfl (fun _ => rfl)
